import Mathlib

/-!
A shallow embedding of the free-form Go loading engine of the golintci
repository (package golang: load.go, pkgs.go, the Program/Module file and
the SrcFile file), together with theorems settling the specification
claims about it.

Modelling conventions, stated once here:

* The file system is a value of type FS: a list of files (absolute path,
  raw content, and the outcome of running the external Go parser on the
  file) plus a list of existing directories.  All paths in the model are
  clean absolute slash-separated strings, so the filepath.Abs calls of the
  source are the identity and are dropped.
* External collaborators are oracles carried in the input: the result of
  parser.ParseFile on a file is the parsed field of its FS entry (none
  models a syntax error), and the go/types checker is a TypeChecker value
  whose check field models types.Config.Check, returning the optional
  typed package handle (identified by its path string) and the optional
  first type error.  parser.ParseFile records every position of the
  produced tree under the file name it was given, so the model stores that
  file name inside the tree (GoAst.fileName); the expression
  pkg.fileSet.Position(tree.Pos()).Filename of the source is rendered as
  tree.fileName.
* Go maps are modelled as association lists with first-occurrence keys
  (lookupStr / putStr); map iteration order, which Go leaves unspecified,
  is the list order.  Pointer mutation through a shared pointer is
  modelled by functional update of the owning registry (Program.setPackage,
  Package.updateSrcFile).  Nil-receiver guards of the source are dropped:
  the model has no nil values, every handle is a value.  The back pointers
  SrcFile.pkg and Package.program are dropped to break the ownership cycle;
  the only datum read through them, the shared position table
  Package.fileSet, is passed explicitly where it is read
  (SrcFile.contain), and the presence of an owning Program is kept as the
  Package.program marker field.  Wall-clock time stamps (LoadInfo.LoadTime)
  are omitted.
* The constants NewLine, ModulePrefix, VersionPrefix, TabString,
  SpaceChar, GoModIndirect and PackagePrefix are referenced by the source
  but their defining file is not part of the sources at hand; they are
  modelled from the spec (see their doc comments).
-/

namespace Golintci

/-! ### String primitives

The Go string helpers of the source (strings.HasPrefix, HasSuffix,
TrimSpace, Split on a one-character separator, slicing) are modelled by
structurally recursive functions over the character list of the string, so
that every definition of this file evaluates inside the kernel. -/

/-- The white space trimmed by strings.TrimSpace (the engine only ever
trims ASCII space shapes). -/
def isSpaceChar (c : Char) : Bool :=
  c == ' ' || c == '\t' || c == '\n' || c == '\r'

/-- charsStart s p: p is a leading run of s. -/
def charsStart : List Char → List Char → Bool
  | _, [] => true
  | [], _ :: _ => false
  | c :: cs, d :: ds => c == d && charsStart cs ds

/-- strings.HasPrefix. -/
def strStartsWith (s p : String) : Bool :=
  charsStart s.data p.data

/-- strings.HasSuffix. -/
def strEndsWith (s p : String) : Bool :=
  charsStart s.data.reverse p.data.reverse

/-- The byte slicing s[n:] of the source (all sliced keywords are ASCII,
so byte and character positions coincide). -/
def strDrop (s : String) (n : Nat) : String :=
  ⟨s.data.drop n⟩

/-- strings.TrimSpace. -/
def strTrim (s : String) : String :=
  ⟨((s.data.dropWhile isSpaceChar).reverse.dropWhile isSpaceChar).reverse⟩

/-- strings.Split on a one-character separator (the engine only splits on
the line feed, the space and the slash). -/
def splitOnChar (sep : Char) : List Char → List (List Char)
  | [] => [[]]
  | c :: rest =>
    let r := splitOnChar sep rest
    if c == sep then [] :: r
    else
      match r with
      | [] => [[c]]
      | h :: t => (c :: h) :: t

def strSplitChar (s : String) (sep : Char) : List String :=
  (splitOnChar sep s.data).map (fun l => ⟨l⟩)

/-- Lexicographic order on strings, used to model the sorted directory
listing of os.ReadDir. -/
def charsLe : List Char → List Char → Bool
  | [], _ => true
  | _ :: _, [] => false
  | c :: cs, d :: ds =>
    if c == d then charsLe cs ds else decide (c < d)

def strLe (a b : String) : Bool :=
  charsLe a.data b.data

/-- Modelled from the spec: the manifest line shapes of section 6 and 4.1.
NewLine is the line separator used to split file text (the source helper
newline() returns a bare line feed on slash-separated systems). -/
def NewLine : String := "\n"

/-- Modelled from the spec: the module-declaration keyword of a manifest
line (the source file const.go carries the same text as GoModulePrefix). -/
def ModuleKeyword : String := "module "

/-- Modelled from the spec: the version-declaration keyword of a manifest
line (a Go manifest declares the language version as a line of the shape
go 1.21). -/
def VersionKeyword : String := "go "

/-- Modelled from the spec: a dependency line begins with a tab character. -/
def TabString : String := "\t"

/-- Modelled from the spec: dependency lines are split on the space
character. -/
def SpaceChar : String := " "

/-- Modelled from the spec: the literal indirect-marker compared against
the last whitespace-delimited token of a dependency line (in a manifest
line the marker comment reads slash slash indirect, so the last token is
the bare word). -/
def GoModIndirect : String := "indirect"

/-- Modelled from the spec: the package-declaration keyword scanned for by
readGoPackageIn. -/
def PackageKeyword : String := "package "

/-- From const.go: the empty string used as the zero value of the model. -/
def NoneString : String := ""

/-- From const.go: the expected suffix of a Go source file. -/
def GoFileSuffix : String := ".go"

/-- From const.go: the expected manifest file name. -/
def GoModFileName : String := "go.mod"

-- Decidable equality of load outcomes, used to evaluate the engine on
-- concrete inputs inside proofs.
deriving instance DecidableEq for Except

/-- The error taxonomy of the engine.  Each constructor corresponds to one
fmt.Errorf site (or returned library error) of the source; the string
arguments carry the offending path. -/
inductive Err where
  | notExist (path : String)
  | notGoFile (path : String)
  | notDir (path : String)
  | notGoMod (path : String)
  | emptyFile (path : String)
  | readFailed (path : String)
  | parseFailed (path : String)
  | noPkgDecl (path : String)
  | noGoModFrom (path : String)
  | noGoModFound (path : String)
  | noGoFiles (path : String)
  | cantInferPkg (path : String)
  | cantGetPackage (path : String)
  | noFilesInPkg (path : String)
  | noTypesPkg
  | typeCheck (msg : String)
  | relPathFailed (root : String) (path : String)
  deriving DecidableEq, Repr

/-- The outcome of parser.ParseFile on one source file: the declared
package name, the file name every position of the tree resolves to, and
the unquoted import paths declared by the file. -/
structure GoAst where
  pkgName : String
  fileName : String
  imports : List String
  deriving DecidableEq, Repr

/-- One file of the modelled file system: its absolute path, its raw
content, and the oracle outcome of the external Go parser on it (none
models a syntax error). -/
structure FSFile where
  path : String
  content : String
  parsed : Option GoAst
  deriving DecidableEq, Repr

/-- The modelled file system: files plus existing directories (disjoint). -/
structure FS where
  files : List FSFile
  dirs : List String
  deriving DecidableEq, Repr

def FS.findFile (fs : FS) (p : String) : Option FSFile :=
  fs.files.find? (fun f => f.path == p)

/-- os.Stat succeeding on a file. -/
def FS.isFile (fs : FS) (p : String) : Bool :=
  (fs.findFile p).isSome

/-- os.Stat reporting a directory. -/
def FS.isDir (fs : FS) (p : String) : Bool :=
  fs.dirs.contains p

/-- os.Stat succeeding at all (negation of os.IsNotExist). -/
def FS.pathExists (fs : FS) (p : String) : Bool :=
  fs.isFile p || fs.isDir p

/-- os.ReadFile: returns the content of a file; reading a directory or a
missing path fails. -/
def FS.readFile (fs : FS) (p : String) : Option String :=
  (fs.findFile p).map (fun f => f.content)

/-- parser.ParseFile(fset, p, nil, mode): reads and parses the file at p;
none models a missing file or a syntax error.  The positions of the
produced tree resolve to the file name the parser was given, hence the
fileName override. -/
def FS.parseFile (fs : FS) (p : String) : Option GoAst :=
  (fs.findFile p).bind (fun f => f.parsed.map (fun a => { a with fileName := p }))

/-- Path segments of a clean absolute path. -/
def pathSegs (p : String) : List String :=
  (strSplitChar p '/').filter (fun s => s ≠ "")

/-- Render segments back to an absolute path; the empty list renders to
the root. -/
def renderAbs (segs : List String) : String :=
  "/" ++ String.intercalate "/" segs

/-- filepath.Dir restricted to clean absolute paths. -/
def dirOf (p : String) : String :=
  renderAbs (pathSegs p).dropLast

/-- filepath.Base restricted to clean absolute paths. -/
def baseNameOf (p : String) : String :=
  ((pathSegs p).getLast?).getD "/"

/-- filepath.Join restricted to the clean inputs of the model (a second
argument of dot is the relative path of a directory to itself and joins to
the first argument unchanged). -/
def joinPath (a b : String) : String :=
  if a == "" then b
  else if b == "" || b == "." then a
  else if strEndsWith a "/" then a ++ b
  else a ++ "/" ++ b

/-- filepath.Rel restricted to clean absolute paths with the root an
ancestor of the target; other shapes (which the engine never feeds it on
the runs the claims are about) are modelled as failure. -/
def relPathOf (root p : String) : Option String :=
  if p == root then some "."
  else if root == "/" then some (strDrop p 1)
  else if strStartsWith p (root ++ "/") then some (strDrop p (root.length + 1))
  else none

/-- Go map lookup over the association-list model. -/
def lookupStr {α : Type} (k : String) : List (String × α) → Option α
  | [] => none
  | e :: rest => if e.1 == k then some e.2 else lookupStr k rest

/-- Go map assignment over the association-list model: overwrite the
binding when the key is present, append it otherwise. -/
def putStr {α : Type} (k : String) (v : α) : List (String × α) → List (String × α)
  | [] => [(k, v)]
  | e :: rest => if e.1 == k then (k, v) :: rest else e :: putStr k v rest

/-- The Module record parsed from a manifest, as in the source: root path,
language version, manifest path, declared name, and the two dependency
maps. -/
structure Module where
  rootPath : String
  goVersion : String
  goModFile : String
  moduleName : String
  directDeps : List (String × String)
  indirectDeps : List (String × String)
  deriving DecidableEq, Repr

/-- newModule: reads the Module information from the manifest path.  The
existence check, the manifest-name suffix check, the read, the zero-byte
check and the line loop follow the source verbatim. -/
def newModule (fs : FS) (goModFile : String) : Except Err Module :=
  if !(fs.pathExists goModFile) then .error (.notExist goModFile)
  else if !(strEndsWith goModFile GoModFileName) then .error (.notGoMod goModFile)
  else
    match fs.readFile goModFile with
    | none => .error (.readFailed goModFile)
    | some content =>
      if content == "" then .error (.emptyFile goModFile)
      else
        let lines := strSplitChar content '\n'
        let init : Module :=
          { rootPath := dirOf goModFile
            goVersion := ""
            goModFile := goModFile
            moduleName := ""
            directDeps := []
            indirectDeps := [] }
        .ok (lines.foldl (fun m line =>
          if strStartsWith line ModuleKeyword then
            { m with moduleName := strTrim (strDrop line ModuleKeyword.length) }
          else if strStartsWith line VersionKeyword then
            { m with goVersion := strTrim (strDrop line VersionKeyword.length) }
          else if strStartsWith line TabString then
            let items := strSplitChar (strTrim line) ' '
            match items with
            | depPath :: depVer :: rest =>
              let lastItem := strTrim (((depPath :: depVer :: rest).getLast?).getD "")
              if lastItem == GoModIndirect then
                { m with indirectDeps := putStr (strTrim depPath) (strTrim depVer) m.indirectDeps }
              else
                { m with directDeps := putStr (strTrim depPath) (strTrim depVer) m.directDeps }
            | _ => m
          else m) init)

/-- An SSA member as seen by the engine: only its source position is ever
read (ssa.Member.Pos()).  token.NoPos is the position zero. -/
structure SSAMember where
  pos : Nat
  deriving DecidableEq, Repr

/-- The shared position table of a Package (token.FileSet), modelled as a
finite table from positions to file names; an unmapped position resolves
to the empty file name, as the zero token.Position does. -/
def PosTable : Type := List (Nat × String)

/-- token.FileSet.Position(pos).Filename over the modelled table. -/
def resolvePos (tbl : PosTable) (pos : Nat) : String :=
  match tbl.find? (fun e => e.1 == pos) with
  | some e => e.2
  | none => ""

/-- A source file node, as in the SrcFile structure of the source: its
path, raw text, optional parsed tree (the syntax field of the source) and
the filtered SSA members. -/
structure SrcFile where
  path : String
  code : String
  tree : Option GoAst
  memSet : List SSAMember
  deriving DecidableEq, Repr

/-- newSrcFile: the fresh source-file node (the pkg back pointer is
dropped, see the header). -/
def newSrcFile (path : String) : SrcFile :=
  { path := path, code := NoneString, tree := none, memSet := [] }

/-- SrcFile.Contain: a position is contained in the file when it is valid
and the file name it resolves to through the shared position table of the
owning Package equals the file path exactly. -/
def SrcFile.contain (tbl : PosTable) (file : SrcFile) (pos : Nat) : Bool :=
  pos != 0 && resolvePos tbl pos == file.path

/-- SrcFile.update: resets code, tree and member set; when a member map is
supplied and not empty, attaches exactly the members whose position is
contained in this file (nil map entries are skipped as in the source). -/
def SrcFile.update (tbl : PosTable) (file : SrcFile) (code : String)
    (tree : Option GoAst) (members : Option (List (Option SSAMember))) : SrcFile :=
  let base := { file with code := code, tree := tree, memSet := [] }
  match members with
  | none => base
  | some ms =>
    if ms.length > 0 then
      { base with memSet := ms.filterMap (fun m? =>
          match m? with
          | none => none
          | some m => if SrcFile.contain tbl base m.pos then some m else none) }
    else base

/-- The snapshot of one loading attempt (LoadInfo of the source; the
LoadTime stamp is omitted, see the header). -/
structure LoadInfo where
  loadedFiles : List String
  ignoredFiles : List String
  illTyped : Bool
  fileErrors : List Err
  typeErrors : List Err
  depsErrors : List Err
  deriving DecidableEq, Repr

/-- A package node, as in the Package structure of the source.  program
marks whether an owning Program exists (the pointer itself is dropped, see
the header); the fileSet pointer is dropped for the same reason and the
position table is passed explicitly where it is read. -/
structure Package where
  program : Option Unit
  pkgName : String
  pkgPath : String
  dirPath : String
  loadInfo : Option LoadInfo
  srcFiles : List (String × SrcFile)
  imports : List String
  typePkg : Option String
  typInfo : Option Unit
  typSize : Option Unit
  deriving DecidableEq, Repr

/-- newPackage (the package-level constructor of the source): a package
with every load output empty. -/
def newPackage (program : Option Unit) (pkgName pkgPath dirPath : String) : Package :=
  { program := program
    pkgName := pkgName
    pkgPath := pkgPath
    dirPath := dirPath
    loadInfo := none
    srcFiles := []
    imports := []
    typePkg := none
    typInfo := none
    typSize := none }

/-- Package.newSrcFile: the idempotent source-file factory; returns the
updated package together with the (existing or fresh) file node. -/
def Package.newSrcFileSt (pkg : Package) (srcPath : String) : Package × SrcFile :=
  match lookupStr srcPath pkg.srcFiles with
  | some f => (pkg, f)
  | none =>
    let f := newSrcFile srcPath
    ({ pkg with srcFiles := putStr srcPath f pkg.srcFiles }, f)

/-- Models the in-place srcFile.update(code, tree, nil) performed through
the pointer held in the srcFiles registry of the package. -/
def Package.updateSrcFile (pkg : Package) (path code : String) (tree : Option GoAst) : Package :=
  { pkg with srcFiles := pkg.srcFiles.map (fun e =>
      if e.1 == path then (e.1, SrcFile.update [] e.2 code tree none) else e) }

/-- The top-level Program: the one Module plus the registry of packages
keyed by import path. -/
structure Program where
  pkgSet : List (String × Package)
  module : Module
  deriving DecidableEq, Repr

/-- Program.newPackage: the idempotent package factory; creates the
package only when no package is registered at the import path, and returns
the registered instance. -/
def Program.newPackage (prog : Program) (pkgName pkgPath dirPath : String) : Program × Package :=
  match lookupStr pkgPath prog.pkgSet with
  | some pkg => (prog, pkg)
  | none =>
    let pkg := Golintci.newPackage (some ()) pkgName pkgPath dirPath
    ({ prog with pkgSet := putStr pkgPath pkg prog.pkgSet }, pkg)

/-- Models an in-place mutation of a registered Package performed through
the shared pointer held in the registry. -/
def Program.setPackage (prog : Program) (pkgPath : String) (pkg : Package) : Program :=
  { prog with pkgSet := putStr pkgPath pkg prog.pkgSet }

/-- The upward walk of goModFileOf, on the reversed segment list of the
current directory (filepath.Dir drops the last segment).  The loop of the
source stops without a check once the root directory is reached. -/
def goModWalk (fs : FS) : List String → Option String
  | [] => none
  | s :: rest =>
    let cwd := renderAbs (s :: rest).reverse
    if fs.pathExists (joinPath cwd GoModFileName) then some cwd
    else goModWalk fs rest

/-- goModFileOf: walks parent directories from cwd upward; despite its
name and doc comment, the source returns the directory containing the
manifest, not the manifest path itself. -/
def goModFileOf (fs : FS) (cwd : String) : Except Err String :=
  match goModWalk fs (pathSegs cwd).reverse with
  | some d => .ok d
  | none => .error (.noGoModFrom cwd)

/-- initProgram: locates the manifest from cwd and builds the Program
around the parsed Module (the empty-cwd os.Getwd branch is dropped: every
caller passes a concrete directory). -/
def initProgram (fs : FS) (cwd : String) : Except Err Program := do
  let root ← goModFileOf fs cwd
  let m ← newModule fs root
  .ok { pkgSet := [], module := m }

/-- readGoPackageIn: scans the file text for the first line whose trimmed
form starts with the package-declaration keyword. -/
def readGoPackageIn (fs : FS) (goFile : String) : Except Err String :=
  if !(fs.pathExists goFile) then .error (.notExist goFile)
  else
    match fs.readFile goFile with
    | none => .error (.readFailed goFile)
    | some content =>
      match (strSplitChar content '\n').findSome? (fun line =>
        let l := strTrim line
        if strStartsWith l PackageKeyword then some (strTrim (strDrop l PackageKeyword.length))
        else none) with
      | some name => .ok name
      | none => .error (.noPkgDecl goFile)

/-- inferGoPkgInfo: infers (pkgPath, pkgName, pkgDir) of a directory or
file from the Module (the nil-module guard of the source is dropped: the
model passes the Module by value). -/
def inferGoPkgInfo (fs : FS) (module : Module) (file : String) :
    Except Err (String × String × String) :=
  if !(fs.pathExists file) then .error (.notExist file)
  else if fs.isDir file then
    match relPathOf module.rootPath file with
    | none => .error (.relPathFailed module.rootPath file)
    | some rel => .ok (joinPath module.moduleName rel, baseNameOf file, file)
  else if strEndsWith file GoFileSuffix then
    let pkgDir := dirOf file
    match relPathOf module.rootPath pkgDir with
    | none => .error (.relPathFailed module.rootPath pkgDir)
    | some rel =>
      match readGoPackageIn fs file with
      | .error e => .error e
      | .ok pkgName => .ok (joinPath module.moduleName rel, pkgName, pkgDir)
  else
    let pkgDir := dirOf file
    match relPathOf module.rootPath pkgDir with
    | none => .error (.relPathFailed module.rootPath pkgDir)
    | some rel => .ok (joinPath module.moduleName rel, baseNameOf pkgDir, pkgDir)

/-- The external go/types checker (types.Config.Check with the permissive
default configuration of the source): given the package path and the
syntax set, returns the optional typed package handle (identified here by
a string) and the optional first error. -/
structure TypeChecker where
  check : String → List GoAst → Option String × Option String

/-- parseSourceFileByFree: the single-file parse-and-typecheck pass.  It
reads the file (a read failure, an empty file or a syntax error is a hard
failure), attaches text and tree to the file node through the registry of
its package, runs the checker over the one-element syntax set, fails when
no typed package handle is produced, and otherwise records the outputs and
a fresh single-file LoadInfo on the package.  On the no-handle failure the
source leaves the file node already updated; the model returns the error
without that intermediate state, which no claim observes. -/
def parseSourceFileByFree (fs : FS) (tc : TypeChecker) (pkg : Package)
    (srcPath : String) : Except Err Package :=
  match fs.readFile srcPath with
  | none => .error (.readFailed srcPath)
  | some content =>
    if content == "" then .error (.emptyFile srcPath)
    else
      match fs.parseFile srcPath with
      | none => .error (.parseFailed srcPath)
      | some ast =>
        let pkg1 := pkg.updateSrcFile srcPath content (some ast)
        let cr := tc.check pkg1.pkgPath [ast]
        match cr.1 with
        | none => .error .noTypesPkg
        | some tp =>
          .ok { pkg1 with
                typePkg := some tp
                typInfo := some ()
                typSize := some ()
                imports := pkg1.imports ++ ast.imports
                loadInfo := some
                  { loadedFiles := [srcPath]
                    ignoredFiles := []
                    illTyped := cr.2.isSome
                    fileErrors := []
                    typeErrors := match cr.2 with | some e => [.typeCheck e] | none => []
                    depsErrors := [] } }

/-- The accumulated outcome of the per-file loop of parseGoPackageByFree. -/
structure PkgLoadAcc where
  pkg : Package
  astFiles : List GoAst
  fileErrs : List Err
  loaded : List String
  deriving DecidableEq, Repr

/-- The per-file loop of parseGoPackageByFree: for each parsed tree,
recover its path from the shared position table (tree.fileName in the
model), read its bytes, record a read failure or an empty file as a file
error and skip it, and otherwise create the file node, update it in place
and keep the tree for the checker. -/
def pkgLoadFiles (fs : FS) (pkg : Package) : List GoAst → PkgLoadAcc
  | [] => { pkg := pkg, astFiles := [], fileErrs := [], loaded := [] }
  | ast :: rest =>
    match fs.readFile ast.fileName with
    | none =>
      let r := pkgLoadFiles fs pkg rest
      { r with fileErrs := .readFailed ast.fileName :: r.fileErrs }
    | some content =>
      if content == "" then
        let r := pkgLoadFiles fs pkg rest
        { r with fileErrs := .emptyFile ast.fileName :: r.fileErrs }
      else
        let pkg2 := ((pkg.newSrcFileSt ast.fileName).1).updateSrcFile ast.fileName content (some ast)
        let r := pkgLoadFiles fs pkg2 rest
        { r with astFiles := ast :: r.astFiles, loaded := ast.fileName :: r.loaded }

/-- An ast.Package produced by parser.ParseDir: the declared name and the
parsed files keyed by file name. -/
structure AstPkg where
  name : String
  files : List (String × GoAst)
  deriving DecidableEq, Repr

/-- First-occurrence deduplication of the import set (the source collects
the imports into a map and copies its keys). -/
def dedupIns (xs : List String) : List String :=
  xs.foldl (fun acc s => if acc.contains s then acc else acc ++ [s]) []

/-- parseGoPackageByFree: the per-package parse-and-typecheck pass.  A
package with no parsed files at all is a hard failure; otherwise the
per-file loop records read failures, the checker runs over the remaining
syntax set (even when that set is empty), the ill-typed flag and the
type-error list are derived from its outcome, and the distinct non-empty
declared-import strings of the parsed files go onto the import list. -/
def parseGoPackageByFree (fs : FS) (tc : TypeChecker) (pkg : Package)
    (astPkg : AstPkg) : Except Err Package :=
  if astPkg.files.length == 0 then .error (.noFilesInPkg pkg.pkgPath)
  else
    let r := pkgLoadFiles fs pkg (astPkg.files.map (fun e => e.2))
    let cr := tc.check r.pkg.pkgPath r.astFiles
    let typeErrs : List Err :=
      match cr.2, cr.1 with
      | some e, _ => [.typeCheck e]
      | none, none => [.noTypesPkg]
      | none, some _ => []
    let rawImports := (astPkg.files.map (fun e => e.2)).foldl
      (fun acc a => acc ++ a.imports.filter (fun s => s.length > 0)) []
    .ok { r.pkg with
          loadInfo := some
            { loadedFiles := r.loaded
              ignoredFiles := []
              illTyped := cr.2.isSome || cr.1.isNone
              fileErrors := r.fileErrs
              typeErrors := typeErrs
              depsErrors := [] }
          typePkg := cr.1
          typInfo := some ()
          typSize := some ()
          imports := r.pkg.imports ++ dedupIns rawImports }

/-- loadSourceFileByFree: validates the path and suffix, attempts module
discovery from the file directory, and either loads the file inside the
discovered Program or falls back to a standalone package rooted at the
file directory, named by the declared package clause of the file.  The
source returns the SrcFile pointer; the model returns the final package
together with the file path, under which the file node is registered. -/
def loadSourceFileByFree (fs : FS) (tc : TypeChecker) (codeFile : String) :
    Except Err (Package × String) :=
  if !(fs.pathExists codeFile) then .error (.notExist codeFile)
  else if fs.isDir codeFile then .error (.notGoFile codeFile)
  else if !(strEndsWith codeFile GoFileSuffix) then .error (.notGoFile codeFile)
  else
    match initProgram fs (dirOf codeFile) with
    | .ok program =>
      match inferGoPkgInfo fs program.module codeFile with
      | .error _ => .error (.cantGetPackage codeFile)
      | .ok (pkgPath, pkgName, pkgDir) =>
        let pr := program.newPackage pkgName pkgPath pkgDir
        let pkg1 := (pr.2.newSrcFileSt codeFile).1
        match parseSourceFileByFree fs tc pkg1 codeFile with
        | .error e => .error e
        | .ok pkg2 => .ok (pkg2, codeFile)
    | .error _ =>
      let pkgDir := dirOf codeFile
      match readGoPackageIn fs codeFile with
      | .error e => .error e
      | .ok pkgName =>
        let pkg := Golintci.newPackage none pkgName pkgDir pkgDir
        let pkg1 := (pkg.newSrcFileSt codeFile).1
        match parseSourceFileByFree fs tc pkg1 codeFile with
        | .error e => .error e
        | .ok pkg2 => .ok (pkg2, codeFile)

/-- Ordered insertion used to model the sorted directory listing of
os.ReadDir. -/
def insertByPath (f : FSFile) : List FSFile → List FSFile
  | [] => [f]
  | g :: rest => if strLe f.path g.path then f :: g :: rest else g :: insertByPath f rest

/-- The directory entries parser.ParseDir visits: the files directly in
the directory with the Go suffix, in the sorted order of os.ReadDir. -/
def sortByPath : List FSFile → List FSFile
  | [] => []
  | f :: rest => insertByPath f (sortByPath rest)

def dirGoFiles (fs : FS) (dir : String) : List FSFile :=
  sortByPath (fs.files.filter (fun f => dirOf f.path == dir && strEndsWith f.path GoFileSuffix))

/-- Insertion of one parsed file into the name-keyed package map of
parser.ParseDir. -/
def astInsert (pkgs : List (String × AstPkg)) (name fileName : String)
    (ast : GoAst) : List (String × AstPkg) :=
  match lookupStr name pkgs with
  | some p => putStr name { p with files := putStr fileName ast p.files } pkgs
  | none => putStr name { name := name, files := [(fileName, ast)] } pkgs

/-- parser.ParseDir: parses every Go file directly inside the directory,
groups the successfully parsed ones by declared package name, and keeps
the first parse error seen (it returns both the map and that error). -/
def parseDirM (fs : FS) (dir : String) : List (String × AstPkg) × Option Err :=
  (dirGoFiles fs dir).foldl (fun acc f =>
    match fs.parseFile f.path with
    | some ast => (astInsert acc.1 ast.pkgName f.path ast, acc.2)
    | none =>
      (acc.1, match acc.2 with
              | some e => some e
              | none => some (.parseFailed f.path))) ([], none)

/-- loadGoDirectoryByFree: validates the directory, parses its files
(aborting on the first parse error), requires module discovery to succeed,
infers the base package path of the directory, and builds one Package per
declared package name, suffixing the declared name onto the base path when
it differs from the directory-inferred short name; a package whose
per-package pass fails is silently excluded from the returned set.  (The
assignment of the shared token.FileSet onto each package is dropped with
the fileSet field, see the header.) -/
def loadGoDirectoryByFree (fs : FS) (tc : TypeChecker) (goDir : String) :
    Except Err (List Package) :=
  if !(fs.pathExists goDir) then .error (.notExist goDir)
  else if !(fs.isDir goDir) then .error (.notDir goDir)
  else
    let pd := parseDirM fs goDir
    match pd.2 with
    | some e => .error e
    | none =>
      if pd.1.length == 0 then .error (.noGoFiles goDir)
      else
        match initProgram fs goDir with
        | .ok program =>
          match inferGoPkgInfo fs program.module goDir with
          | .error _ => .error (.cantInferPkg goDir)
          | .ok (pkgPath, pkgName, _) =>
            let res := pd.1.foldl (fun (acc : Program × List Package) entry =>
              if entry.1.length > 0 && entry.2.files.length > 0 then
                let newPkgPath :=
                  if entry.1 != pkgName then pkgPath ++ "/" ++ entry.1 else pkgPath
                let pr := acc.1.newPackage entry.1 newPkgPath goDir
                match parseGoPackageByFree fs tc pr.2 entry.2 with
                | .ok pkg2 => (pr.1.setPackage newPkgPath pkg2, acc.2 ++ [pkg2])
                | .error _ => (pr.1, acc.2)
              else acc) (program, [])
            .ok res.2
        | .error _ => .error (.noGoModFound goDir)

/-! ### Helper lemmas -/

theorem lookupStr_putStr_self {α : Type} (k : String) (v : α)
    (l : List (String × α)) : lookupStr k (putStr k v l) = some v := by
  induction l with
  | nil => simp [putStr, lookupStr]
  | cons e rest ih =>
    unfold putStr
    by_cases h : (e.1 == k) = true
    · rw [if_pos h]
      unfold lookupStr
      simp
    · rw [if_neg h]
      unfold lookupStr
      rw [if_neg h]
      exact ih

theorem pathExists_of_readFile {fs : FS} {p c : String}
    (h : fs.readFile p = some c) : fs.pathExists p = true := by
  unfold FS.readFile at h
  unfold FS.pathExists FS.isFile
  cases hf : fs.findFile p with
  | none => rw [hf] at h; simp at h
  | some f => simp

/-- The membership characterisation of the member filter of
SrcFile.update, shared by the two halves of the claim about it. -/
theorem update_memSet_iff (tbl : PosTable) (f : SrcFile) (code : String)
    (tree : Option GoAst) (ms : List (Option SSAMember)) (m : SSAMember)
    (hv : m.pos ≠ 0) :
    m ∈ (SrcFile.update tbl f code tree (some ms)).memSet ↔
      (some m ∈ ms ∧ resolvePos tbl m.pos = f.path) := by
  by_cases h0 : ms.length > 0
  · simp only [SrcFile.update, h0, if_pos]
    rw [List.mem_filterMap]
    constructor
    · rintro ⟨a, ha, hfa⟩
      match a with
      | none => simp at hfa
      | some mm =>
        by_cases hc : SrcFile.contain tbl { f with code := code, tree := tree, memSet := [] } mm.pos = true
        · simp only [hc, if_pos, Option.some.injEq] at hfa
          subst hfa
          refine ⟨ha, ?_⟩
          unfold SrcFile.contain at hc
          have := (Bool.and_eq_true _ _).mp hc
          exact eq_of_beq this.2
        · simp only [Bool.not_eq_true] at hc
          simp [hc] at hfa
    · rintro ⟨hm, hres⟩
      refine ⟨some m, hm, ?_⟩
      have hc : SrcFile.contain tbl { f with code := code, tree := tree, memSet := [] } m.pos = true := by
        unfold SrcFile.contain
        refine (Bool.and_eq_true _ _).mpr ⟨?_, ?_⟩
        · simp [bne_iff_ne, hv]
        · simp [hres]
      simp [hc]
  · have hnil : ms = [] := List.length_eq_zero.mp (Nat.eq_zero_of_not_pos h0)
    subst hnil
    simp [SrcFile.update]

/-! ### Fixtures: concrete file systems and oracles used by the closed
theorems and witnesses below. -/

/-- A type checker that always produces a typed package handle named by
the package path and no error. -/
def tcW : TypeChecker := ⟨fun p _ => (some p, none)⟩

/-- The manifest text of the parsing example of the spec. -/
def manifestC6 : String :=
  "module example.com/app" ++ NewLine ++
  TabString ++ "example.com/dep v1.2.3" ++ NewLine ++
  TabString ++ "example.com/indirectdep v0.9.0 // indirect" ++ NewLine

def fsC6 : FS := ⟨[⟨"/r/go.mod", manifestC6, none⟩], ["/", "/r"]⟩

/-- The Module the manifest example parses to. -/
def moduleC6 : Module :=
  { rootPath := "/r"
    goVersion := ""
    goModFile := "/r/go.mod"
    moduleName := "example.com/app"
    directDeps := [("example.com/dep", "v1.2.3")]
    indirectDeps := [("example.com/indirectdep", "v0.9.0")] }

/-- A module with root /r (manifest present) and a directory /r/a holding
one parsable Go file. -/
def fsC1 : FS :=
  ⟨[⟨"/r/go.mod", "module m" ++ NewLine, none⟩,
    ⟨"/r/a/x.go", "package a" ++ NewLine, some ⟨"a", "", []⟩⟩],
   ["/", "/r", "/r/a"]⟩

/-- A module whose directory /r/a holds one file with a syntax error and
one well-formed file of the same declared package. -/
def fsC2 : FS :=
  ⟨[⟨"/r/go.mod", "module m" ++ NewLine, none⟩,
    ⟨"/r/a/bad.go", "package a !! broken", none⟩,
    ⟨"/r/a/ok.go", "package a" ++ NewLine, some ⟨"a", "", []⟩⟩],
   ["/", "/r", "/r/a"]⟩

/-- A variant of the previous layout whose directory holds only the
broken file. -/
def fsC2b : FS :=
  ⟨[⟨"/r/go.mod", "module m" ++ NewLine, none⟩,
    ⟨"/r/a/bad.go", "package a !! broken", none⟩],
   ["/", "/r", "/r/a"]⟩

/-- A file system whose only manifest-like file has base name xgo.mod. -/
def fsC7 : FS := ⟨[⟨"/r/xgo.mod", "module m" ++ NewLine, none⟩], ["/", "/r"]⟩

/-- The Module parsed out of the file named xgo.mod. -/
def moduleC7 : Module :=
  { rootPath := "/r"
    goVersion := ""
    goModFile := "/r/xgo.mod"
    moduleName := "m"
    directDeps := []
    indirectDeps := [] }

/-- An empty file system. -/
def fsMiss : FS := ⟨[], []⟩

/-- A file system holding a file without the manifest suffix. -/
def fsWrong : FS := ⟨[⟨"/r/modfile", "module m", none⟩], ["/", "/r"]⟩

/-- A file system holding a zero-byte manifest. -/
def fsEmptyMod : FS := ⟨[⟨"/s/go.mod", "", none⟩], ["/", "/s"]⟩

/-- A lone parsable Go file with no manifest anywhere above it. -/
def fsC3 : FS := ⟨[⟨"/d/a.go", "package a" ++ NewLine, some ⟨"a", "", []⟩⟩], ["/", "/d"]⟩

def astC3 : GoAst := ⟨"a", "/d/a.go", []⟩

/-! ### Claim theorems -/

/-- C6: parsing a manifest with the line module example.com/app, a
tab-indented dependency line example.com/dep v1.2.3 and a tab-indented
dependency line example.com/indirectdep v0.9.0 with trailing indirect
marker yields a Module with that module name, exactly one direct
dependency entry mapping example.com/dep to v1.2.3, and exactly one
indirect dependency entry mapping example.com/indirectdep to v0.9.0. -/
theorem c6_manifest_parse :
    newModule fsC6 "/r/go.mod" = .ok moduleC6
    ∧ moduleC6.moduleName = "example.com/app"
    ∧ moduleC6.directDeps = [("example.com/dep", "v1.2.3")]
    ∧ moduleC6.indirectDeps = [("example.com/indirectdep", "v0.9.0")] := by
  exact ⟨by decide, rfl, rfl, rfl⟩

/-- C7 counterexample: the reader accepts the file /r/xgo.mod, whose base
file name xgo.mod differs from the expected manifest name go.mod, because
the source checks only that the path ends with go.mod; the claim that a
mismatching filename fails with WrongKind is therefore false. -/
theorem c7_wrongkind_cex :
    baseNameOf "/r/xgo.mod" ≠ GoModFileName
    ∧ newModule fsC7 "/r/xgo.mod" = .ok moduleC7 := by
  exact ⟨by decide, by decide⟩

/-- C7 amended: the reader fails with the NotFound kind when the path is
absent, with the WrongKind kind when the path does not end with the
manifest name, and with the Empty kind when the file has zero bytes; in
none of these cases does it return a Module. -/
theorem c7_reader_error_kinds (fs : FS) (p : String) :
    (fs.pathExists p = false → newModule fs p = .error (.notExist p))
    ∧ (fs.pathExists p = true → strEndsWith p GoModFileName = false →
        newModule fs p = .error (.notGoMod p))
    ∧ (fs.readFile p = some "" → strEndsWith p GoModFileName = true →
        newModule fs p = .error (.emptyFile p)) := by
  refine ⟨?_, ?_, ?_⟩
  · intro h
    simp [newModule, h]
  · intro h1 h2
    simp [newModule, h1, h2]
  · intro h1 h2
    have h3 := pathExists_of_readFile h1
    simp [newModule, h1, h2, h3]

/-- Witness for the amended C7 theorem: the three error kinds observed on
three concrete manifests (a missing path, a file without the manifest
suffix, and a zero-byte manifest). -/
theorem c7_reader_error_kinds_witness :
    newModule fsMiss "/x/go.mod" = .error (.notExist "/x/go.mod")
    ∧ newModule fsWrong "/r/modfile" = .error (.notGoMod "/r/modfile")
    ∧ newModule fsEmptyMod "/s/go.mod" = .error (.emptyFile "/s/go.mod") := by
  refine ⟨?_, ?_, ?_⟩
  · exact (c7_reader_error_kinds fsMiss "/x/go.mod").1 (by decide)
  · exact (c7_reader_error_kinds fsWrong "/r/modfile").2.1 (by decide) (by decide)
  · exact (c7_reader_error_kinds fsEmptyMod "/s/go.mod").2.2 (by decide) (by decide)

/-- C1 (code bug): on a module root /r holding a manifest and a directory
/r/a holding one parsable Go file, the upward walk finds the manifest yet
returns the containing directory /r instead of the manifest path (its own
doc comment promises the path of the manifest), newModule rejects that
directory with the not-a-manifest error, and the directory loader
therefore fails with the cannot-find-manifest error instead of returning
one Package per declared package name. -/
theorem c1_module_discovery_bug :
    fsC1.pathExists "/r/go.mod" = true
    ∧ (parseDirM fsC1 "/r/a").1.length = 1
    ∧ goModFileOf fsC1 "/r/a" = .ok "/r"
    ∧ newModule fsC1 "/r" = .error (.notGoMod "/r")
    ∧ loadGoDirectoryByFree fsC1 tcW "/r/a" = .error (.noGoModFound "/r/a") := by
  exact ⟨by decide, by decide, by decide, by decide, by decide⟩

/-- C2 counterexample: the directory /r/a holds one file with a syntax
error and one well-formed file of the same declared package, yet the
non-recursive directory loader aborts with the parse error instead of
producing a Package; the call is aborted, refuting the claim. -/
theorem c2_partial_failure_cex :
    fsC2.parseFile "/r/a/bad.go" = none
    ∧ fsC2.parseFile "/r/a/ok.go" = some ⟨"a", "/r/a/ok.go", []⟩
    ∧ loadGoDirectoryByFree fsC2 tcW "/r/a" = .error (.parseFailed "/r/a/bad.go") := by
  exact ⟨by decide, by decide, by decide⟩

/-- C2 amended: when any Go file directly inside the directory fails to
parse, the non-recursive directory loader aborts, returning the first
parse error; no Package is produced for that directory. -/
theorem c2_parse_error_aborts (fs : FS) (tc : TypeChecker) (dir : String)
    (e : Err) (h1 : fs.pathExists dir = true) (h2 : fs.isDir dir = true)
    (h3 : (parseDirM fs dir).2 = some e) :
    loadGoDirectoryByFree fs tc dir = .error e := by
  simp [loadGoDirectoryByFree, h1, h2, h3]

/-- Witness for the amended C2 theorem: a directory holding only a broken
file makes the loader return that parse error. -/
theorem c2_parse_error_aborts_witness :
    loadGoDirectoryByFree fsC2b tcW "/r/a" = .error (.parseFailed "/r/a/bad.go") :=
  c2_parse_error_aborts fsC2b tcW "/r/a" (.parseFailed "/r/a/bad.go")
    (by decide) (by decide) (by decide)

/-- C3: for an existing, readable, parsable Go file with the expected
suffix, the single-file loader succeeds even when no manifest is
discoverable from the file directory upward: it builds a standalone
package (no owning Program) rooted at the file directory, named by the
declared package clause of the file, and returns the loaded source file
with text and tree attached. -/
theorem c3_single_file_fallback (fs : FS) (tc : TypeChecker)
    (codeFile pkgName content tp : String) (ast : GoAst)
    (hex : fs.pathExists codeFile = true)
    (hnd : fs.isDir codeFile = false)
    (hsuf : strEndsWith codeFile GoFileSuffix = true)
    (hnomod : goModWalk fs (pathSegs (dirOf codeFile)).reverse = none)
    (hname : readGoPackageIn fs codeFile = .ok pkgName)
    (hread : fs.readFile codeFile = some content)
    (hne : content ≠ "")
    (hparse : fs.parseFile codeFile = some ast)
    (htc : (tc.check (dirOf codeFile) [ast]).1 = some tp) :
    ∃ pkgF, loadSourceFileByFree fs tc codeFile = .ok (pkgF, codeFile)
      ∧ pkgF.program = none
      ∧ pkgF.pkgName = pkgName
      ∧ pkgF.pkgPath = dirOf codeFile
      ∧ pkgF.dirPath = dirOf codeFile
      ∧ lookupStr codeFile pkgF.srcFiles =
          some { path := codeFile, code := content, tree := some ast, memSet := [] } := by
  have hbe : (content == "") = false := by
    rw [beq_eq_false_iff_ne]
    exact hne
  have hinit : initProgram fs (dirOf codeFile) = .error (.noGoModFrom (dirOf codeFile)) := by
    unfold initProgram goModFileOf
    rw [hnomod]
    rfl
  refine ⟨{ program := none
            pkgName := pkgName
            pkgPath := dirOf codeFile
            dirPath := dirOf codeFile
            loadInfo := some
              { loadedFiles := [codeFile]
                ignoredFiles := []
                illTyped := (tc.check (dirOf codeFile) [ast]).2.isSome
                fileErrors := []
                typeErrors := match (tc.check (dirOf codeFile) [ast]).2 with
                  | some e => [.typeCheck e]
                  | none => []
                depsErrors := [] }
            srcFiles := [(codeFile,
              { path := codeFile, code := content, tree := some ast, memSet := [] })]
            imports := [] ++ ast.imports
            typePkg := some tp
            typInfo := some ()
            typSize := some () }, ?_, rfl, rfl, rfl, rfl, ?_⟩
  · simp only [loadSourceFileByFree, hex, hnd, hsuf, hinit, hname,
      parseSourceFileByFree, hread, hbe, hparse, Package.updateSrcFile,
      Golintci.newPackage, Package.newSrcFileSt, lookupStr, putStr,
      SrcFile.update, newSrcFile, htc, NoneString, Bool.not_true,
      Bool.false_eq_true, if_false, List.map_cons, List.map_nil]
    simp [htc]
  · simp [lookupStr]

/-- Witness for the single-file fallback: the lone file /d/a.go, with no
manifest anywhere above it, loads into a standalone package named a and
rooted at /d. -/
theorem c3_single_file_fallback_witness :
    ∃ pkgF, loadSourceFileByFree fsC3 tcW "/d/a.go" = .ok (pkgF, "/d/a.go")
      ∧ pkgF.program = none
      ∧ pkgF.pkgName = "a"
      ∧ pkgF.pkgPath = dirOf "/d/a.go"
      ∧ pkgF.dirPath = dirOf "/d/a.go"
      ∧ lookupStr "/d/a.go" pkgF.srcFiles =
          some { path := "/d/a.go", code := "package a" ++ NewLine,
                 tree := some astC3, memSet := [] } :=
  c3_single_file_fallback fsC3 tcW "/d/a.go" "a" ("package a" ++ NewLine) "/d" astC3
    (by decide) (by decide) (by decide) (by decide) (by decide) (by decide)
    (by decide) (by decide) (by decide)

/-- A package with no parsed files, used to exhibit the NoFiles hard
failure. -/
def astC4empty : AstPkg := ⟨"a", []⟩

/-- An ast package with one parsed file whose path is unreadable. -/
def astC4 : AstPkg := ⟨"a", [("/r/a/x.go", ⟨"a", "/r/a/x.go", []⟩)]⟩

def pkgC4 : Package := Golintci.newPackage none "a" "m/a" "/r/a"

/-- A checker that records how many syntax trees it was invoked on. -/
def tc4 : TypeChecker := ⟨fun _ asts => (some ("checked" ++ toString asts.length), none)⟩

/-- A file system in which the file of astC4 does not exist. -/
def fsC4 : FS := ⟨[], ["/", "/r", "/r/a"]⟩

/-- The package state produced by the per-package pass on astC4 over fsC4. -/
def pkgC4res : Package :=
  { program := none
    pkgName := "a"
    pkgPath := "m/a"
    dirPath := "/r/a"
    loadInfo := some
      { loadedFiles := []
        ignoredFiles := []
        illTyped := false
        fileErrors := [.readFailed "/r/a/x.go"]
        typeErrors := []
        depsErrors := [] }
    srcFiles := []
    imports := []
    typePkg := some "checked0"
    typInfo := some ()
    typSize := some () }

/-- C4 counterexample: a Package whose one parsed file fails to read (so
zero files are successfully read) does not produce the NoFiles hard
failure: the pass succeeds, records the read failure, and invokes the
type checker on the empty syntax set (the handle checked0 names the zero
trees the checker received). -/
theorem c4_no_files_cex :
    parseGoPackageByFree fsC4 tc4 pkgC4 astC4 = .ok pkgC4res
    ∧ pkgC4res.typePkg = (tc4.check pkgC4.pkgPath []).1
    ∧ pkgC4res.loadInfo = some ⟨[], [], false, [.readFailed "/r/a/x.go"], [], []⟩ := by
  exact ⟨by decide, by decide, by decide⟩

/-- The per-file loop on a list of trees that all fail to read or are
zero-byte: no file survives, each tree contributes one file error, the
package is untouched. -/
theorem pkgLoadFiles_allFail (fs : FS) (pkg : Package) (asts : List GoAst)
    (h : ∀ a ∈ asts, fs.readFile a.fileName = none ∨ fs.readFile a.fileName = some "") :
    (pkgLoadFiles fs pkg asts).pkg = pkg
    ∧ (pkgLoadFiles fs pkg asts).astFiles = []
    ∧ (pkgLoadFiles fs pkg asts).fileErrs.length = asts.length
    ∧ (pkgLoadFiles fs pkg asts).loaded = [] := by
  induction asts with
  | nil => exact ⟨rfl, rfl, rfl, rfl⟩
  | cons a rest ih =>
    have hrest : ∀ x ∈ rest, fs.readFile x.fileName = none ∨ fs.readFile x.fileName = some "" :=
      fun x hx => h x (List.mem_cons_of_mem a hx)
    obtain ⟨i1, i2, i3, i4⟩ := ih hrest
    rcases h a (List.mem_cons_self a rest) with ha | ha <;>
      · unfold pkgLoadFiles
        rw [ha]
        simp [i1, i2, i3, i4]

/-- C4 amended: the per-package pass returns the NoFiles hard failure
exactly when the ast package holds no parsed file at all; when parsed
files exist but every one fails to read or is zero-byte, the pass
succeeds, loads nothing, records one file error per file, and still
invokes the type checker, on the empty syntax set. -/
theorem c4_no_files_policy (fs : FS) (tc : TypeChecker) (pkg : Package)
    (astPkg : AstPkg) :
    (astPkg.files = [] →
      parseGoPackageByFree fs tc pkg astPkg = .error (.noFilesInPkg pkg.pkgPath))
    ∧ (astPkg.files ≠ [] →
      (∀ e ∈ astPkg.files, fs.readFile e.2.fileName = none ∨ fs.readFile e.2.fileName = some "") →
      ∃ res, parseGoPackageByFree fs tc pkg astPkg = .ok res
        ∧ res.srcFiles = pkg.srcFiles
        ∧ res.loadInfo.map LoadInfo.loadedFiles = some []
        ∧ res.loadInfo.map (fun li => li.fileErrors.length) = some astPkg.files.length
        ∧ res.typePkg = (tc.check pkg.pkgPath []).1) := by
  constructor
  · intro h
    unfold parseGoPackageByFree
    simp [h]
  · intro hne hall
    have hmap : ∀ a ∈ astPkg.files.map (fun e => e.2),
        fs.readFile a.fileName = none ∨ fs.readFile a.fileName = some "" := by
      intro a ha
      obtain ⟨e, he, rfl⟩ := List.mem_map.mp ha
      exact hall e he
    obtain ⟨i1, i2, i3, i4⟩ := pkgLoadFiles_allFail fs pkg (astPkg.files.map (fun e => e.2)) hmap
    have hlen : (astPkg.files.length == 0) = false := by
      simp [List.length_eq_zero, hne]
    unfold parseGoPackageByFree
    rw [hlen]
    simp only [Bool.false_eq_true, if_false]
    refine ⟨_, rfl, ?_, ?_, ?_, ?_⟩
    · simp [i1]
    · simp [i4]
    · simp [i3, List.length_map]
    · simp [i1, i2]

/-- Witness for the amended C4 theorem: the NoFiles failure on a package
with no parsed files, and the successful pass (with the checker run on the
empty set) when the only parsed file is unreadable. -/
theorem c4_no_files_policy_witness :
    parseGoPackageByFree fsC4 tc4 pkgC4 astC4empty = .error (.noFilesInPkg "m/a")
    ∧ (∃ res, parseGoPackageByFree fsC4 tc4 pkgC4 astC4 = .ok res
        ∧ res.srcFiles = pkgC4.srcFiles
        ∧ res.loadInfo.map LoadInfo.loadedFiles = some []
        ∧ res.loadInfo.map (fun li => li.fileErrors.length) = some astC4.files.length
        ∧ res.typePkg = (tc4.check pkgC4.pkgPath []).1) :=
  ⟨(c4_no_files_policy fsC4 tc4 pkgC4 astC4empty).1 (by decide),
   (c4_no_files_policy fsC4 tc4 pkgC4 astC4).2 (by decide) (by decide)⟩

/-- C5: every Load-Info record constructed by the single-file pass or the
per-package pass has its ill-typed flag set exactly when the type-error
list of the record is non-empty or no typed package handle was produced. -/
theorem c5_illtyped_iff (fs : FS) (tc : TypeChecker) (pkgA : Package)
    (pA : String) (pkgB : Package) (astB : AstPkg) (pkg1 pkg2 : Package)
    (li1 li2 : LoadInfo)
    (h1 : parseSourceFileByFree fs tc pkgA pA = .ok pkg1)
    (h2 : pkg1.loadInfo = some li1)
    (h3 : parseGoPackageByFree fs tc pkgB astB = .ok pkg2)
    (h4 : pkg2.loadInfo = some li2) :
    (li1.illTyped = true ↔ (li1.typeErrors ≠ [] ∨ pkg1.typePkg = none))
    ∧ (li2.illTyped = true ↔ (li2.typeErrors ≠ [] ∨ pkg2.typePkg = none)) := by
  constructor
  · simp only [parseSourceFileByFree] at h1
    split at h1
    · exact absurd h1 (by simp)
    · split at h1
      · exact absurd h1 (by simp)
      · split at h1
        · exact absurd h1 (by simp)
        · split at h1
          · exact absurd h1 (by simp)
          · simp only [Except.ok.injEq] at h1
            subst h1
            simp only [Option.some.injEq] at h2
            subst h2
            rcases hc : (tc.check (pkgA.updateSrcFile pA _ _).pkgPath _).2 with _ | e <;>
              simp_all
  · simp only [parseGoPackageByFree] at h3
    split at h3
    · exact absurd h3 (by simp)
    · simp only [Except.ok.injEq] at h3
      subst h3
      simp only [Option.some.injEq] at h4
      subst h4
      rcases hc2 : (tc.check (pkgLoadFiles fs pkgB _).pkg.pkgPath _).2 with _ | e <;>
        rcases hc1 : (tc.check (pkgLoadFiles fs pkgB _).pkg.pkgPath _).1 with _ | tp <;>
          simp_all

/-- The lone-file fixtures of the witness of the ill-typed invariant. -/
def pkgA5 : Package := ((Golintci.newPackage none "a" "/d" "/d").newSrcFileSt "/d/a.go").1

def pkgB5 : Package := Golintci.newPackage none "a" "/d" "/d"

def astB5 : AstPkg := ⟨"a", [("/d/a.go", astC3)]⟩

def defaultPkg : Package := Golintci.newPackage none "" "" ""

def c5run1 : Package :=
  (parseSourceFileByFree fsC3 tcW pkgA5 "/d/a.go").toOption.getD defaultPkg

def c5li1 : LoadInfo := c5run1.loadInfo.getD ⟨[], [], false, [], [], []⟩

def c5run2 : Package :=
  (parseGoPackageByFree fsC3 tcW pkgB5 astB5).toOption.getD defaultPkg

def c5li2 : LoadInfo := c5run2.loadInfo.getD ⟨[], [], false, [], [], []⟩

/-- Witness for the ill-typed invariant: both passes run on a concrete
well-formed lone file. -/
theorem c5_illtyped_iff_witness :
    (c5li1.illTyped = true ↔ (c5li1.typeErrors ≠ [] ∨ c5run1.typePkg = none))
    ∧ (c5li2.illTyped = true ↔ (c5li2.typeErrors ≠ [] ∨ c5run2.typePkg = none)) :=
  c5_illtyped_iff fsC3 tcW pkgA5 "/d/a.go" pkgB5 astB5 c5run1 c5run2 c5li1 c5li2
    (by decide) (by decide) (by decide) (by decide)

/-- C8: requesting a package at an import path a second time returns the
very instance held in the registry, leaves the Program unchanged, and the
source-file registry of that package (including a file registered between
the two calls) is not reset. -/
theorem c8_idempotent_creation (prog : Program) (n P d f : String) :
    let pkg1 := ((prog.newPackage n P d).2.newSrcFileSt f).1
    let prog1 := (prog.newPackage n P d).1.setPackage P pkg1
    prog1.newPackage n P d = (prog1, pkg1)
    ∧ (prog1.newPackage n P d).2.srcFiles.length = pkg1.srcFiles.length := by
  intro pkg1 prog1
  have hl : lookupStr P prog1.pkgSet = some pkg1 :=
    lookupStr_putStr_self P pkg1 (prog.newPackage n P d).1.pkgSet
  have he : prog1.newPackage n P d = (prog1, pkg1) := by
    unfold Program.newPackage
    rw [hl]
  exact ⟨he, by rw [he]⟩

/-- C9: a derived member attaches to a source file under update exactly
when its position is resolved by the shared position table to a file name
that equals the file path as a string (the comparison is exact and
case-sensitive); a member resolving to one path is never attached to a
file with a different path, in particular not to a file whose path drops
the trailing segment. -/
theorem c9_member_filtering (tbl : PosTable) (f g : SrcFile) (code : String)
    (tree : Option GoAst) (ms : List (Option SSAMember)) (m : SSAMember)
    (hv : m.pos ≠ 0) :
    (m ∈ (SrcFile.update tbl f code tree (some ms)).memSet ↔
      (some m ∈ ms ∧ resolvePos tbl m.pos = f.path))
    ∧ (resolvePos tbl m.pos = f.path → g.path ≠ f.path →
      m ∉ (SrcFile.update tbl g code tree (some ms)).memSet) := by
  refine ⟨update_memSet_iff tbl f code tree ms m hv, ?_⟩
  intro hres hne hmem
  have hg := (update_memSet_iff tbl g code tree ms m hv).mp hmem
  exact hne (hg.2.symm.trans hres)

def tblW : PosTable := [(5, "/a/b.go")]

def fW : SrcFile := newSrcFile "/a/b.go"

/-- A file whose path differs from fW only by the trailing path segment. -/
def gW : SrcFile := newSrcFile "/a/b"

def mW : SSAMember := ⟨5⟩

def msW : List (Option SSAMember) := [some mW]

/-- Witness for the member-filtering claim: a member at position 5 of file
/a/b.go attaches to that file and not to the file /a/b. -/
theorem c9_member_filtering_witness :
    (mW ∈ (SrcFile.update tblW fW "code" none (some msW)).memSet ↔
      (some mW ∈ msW ∧ resolvePos tblW mW.pos = fW.path))
    ∧ (resolvePos tblW mW.pos = fW.path → gW.path ≠ fW.path →
      mW ∉ (SrcFile.update tblW gW "code" none (some msW)).memSet) :=
  c9_member_filtering tblW fW gW "code" none msW mW (by decide)

/-- C10: requesting a package at an already-registered import path with
any other short name and directory returns the registered instance with
its name, import path and directory unchanged, and leaves the Program
unchanged: the arguments of the later call are discarded. -/
theorem c10_existing_package_frame (prog : Program) (n2 P d2 : String)
    (pkg : Package) (h : lookupStr P prog.pkgSet = some pkg) :
    prog.newPackage n2 P d2 = (prog, pkg)
    ∧ (prog.newPackage n2 P d2).2.pkgName = pkg.pkgName
    ∧ (prog.newPackage n2 P d2).2.pkgPath = pkg.pkgPath
    ∧ (prog.newPackage n2 P d2).2.dirPath = pkg.dirPath := by
  have he : prog.newPackage n2 P d2 = (prog, pkg) := by
    unfold Program.newPackage
    rw [h]
  exact ⟨he, by rw [he], by rw [he], by rw [he]⟩

def pkgX : Package := Golintci.newPackage (some ()) "a" "m/a" "/r/a"

def progW : Program := { pkgSet := [("m/a", pkgX)], module := moduleC7 }

/-- Witness for the frame claim: a second creation call at the registered
path m/a with a different name and directory returns the stored package
untouched. -/
theorem c10_existing_package_frame_witness :
    progW.newPackage "zzz" "m/a" "/elsewhere" = (progW, pkgX)
    ∧ (progW.newPackage "zzz" "m/a" "/elsewhere").2.pkgName = pkgX.pkgName
    ∧ (progW.newPackage "zzz" "m/a" "/elsewhere").2.pkgPath = pkgX.pkgPath
    ∧ (progW.newPackage "zzz" "m/a" "/elsewhere").2.dirPath = pkgX.dirPath :=
  c10_existing_package_frame progW "zzz" "m/a" "/elsewhere" pkgX (by decide)

end Golintci
